import Mathlib

/-!
Verification of the two programs in this repository against their
natural-language specification:

* `GradeTracker` — shallow embedding of `lecture_3/main.py`, the console
  student grade analyzer.  Strings are modelled as `List Char` (the inputs
  are assumed already stripped, as the Python code calls `.strip()` before
  every use), grades as `Int` (Python `int`), and arithmetic means as `ℚ`
  (the idealisation of Python's float division on integer data).
* `BookAPI` — shallow embedding of `lecture_5/book_api/main.py`, the
  FastAPI/SQLAlchemy book collection service.  The SQLite-backed table is
  modelled as a list of rows in insertion order; the SQLite rowid
  allocation used by an `Integer` primary key without `AUTOINCREMENT`
  (one more than the largest id currently in the table, `1` for an empty
  table) is modelled explicitly in `nextId`.
-/

set_option autoImplicit false

namespace GradeTracker

/-- A student record: `{"name": ..., "grades": []}` in `add_new_student`. -/
structure Student where
  name : List Char
  grades : List Int
  deriving DecidableEq, Repr

/-- Python's `str.lower()` restricted to the characters the program sees. -/
def lowerStr (s : List Char) : List Char :=
  s.map Char.toLower

/-- Outcome reported by `add_new_student` (the printed message). -/
inductive AddResult where
  | emptyName
  | duplicate
  | added
  deriving DecidableEq, Repr

/-- `add_new_student` from `lecture_3/main.py`: rejects an empty (stripped)
name, rejects a case-insensitive duplicate, otherwise appends a fresh record
with an empty grade list. -/
def add_new_student (students : List Student) (name : List Char) :
    List Student × AddResult :=
  if name.isEmpty then
    (students, .emptyName)
  else if students.any (fun s => lowerStr s.name == lowerStr name) then
    (students, .duplicate)
  else
    (students ++ [⟨name, []⟩], .added)

/-- `c` is an ASCII decimal digit (codepoints 48–57). -/
def isDigitChar (c : Char) : Bool :=
  48 ≤ c.toNat && c.toNat ≤ 57

/-- Numeric value of an ASCII digit. -/
def digitVal (c : Char) : Nat :=
  c.toNat - 48

/-- Digits of a Python integer literal after the first digit: further digits,
optionally separated by single underscores (`int("1_0") = 10`); a trailing or
doubled underscore is a `ValueError`. -/
def parseDigitsRest (acc : Nat) : List Char → Option Nat
  | [] => some acc
  | '_' :: c :: rest =>
    if isDigitChar c then parseDigitsRest (acc * 10 + digitVal c) rest else none
  | c :: rest =>
    if isDigitChar c then parseDigitsRest (acc * 10 + digitVal c) rest else none

/-- An unsigned run of digits (with Python's underscore rule); must be
nonempty and start with a digit. -/
def parseDigits : List Char → Option Nat
  | [] => none
  | c :: rest =>
    if isDigitChar c then parseDigitsRest (digitVal c) rest else none

/-- Python's `int(s)` on an already-stripped string: an optional sign
followed by digits; anything else raises `ValueError` (here `none`). -/
def pyInt : List Char → Option Int
  | '+' :: rest => (parseDigits rest).map Int.ofNat
  | '-' :: rest => (parseDigits rest).map (fun n => -(n : Int))
  | s => (parseDigits s).map Int.ofNat

/-- One pass of the grade-entry loop body in `add_grades_for_student`, on one
(already-stripped) input line.  `none` means the loop terminates (the input
was `"done"` up to case); `some gs` means the loop continues with grade list
`gs`: an empty line, a non-numeric line and an out-of-range number are
reported and leave the grades unchanged, a grade in `[0, 100]` is appended. -/
def grade_step (grades : List Int) (inp : List Char) : Option (List Int) :=
  if inp.isEmpty then
    some grades
  else if lowerStr inp == ['d', 'o', 'n', 'e'] then
    none
  else
    match pyInt inp with
    | some g => if g < 0 || 100 < g then some grades else some (grades ++ [g])
    | none => some grades

/-- The grade-entry loop of `add_grades_for_student`, run on a finite list of
input lines: stops at the first `"done"` (or when input is exhausted) and
returns the final grade list. -/
def add_grades_loop (grades : List Int) : List (List Char) → List Int
  | [] => grades
  | inp :: rest =>
    match grade_step grades inp with
    | none => grades
    | some gs => add_grades_loop gs rest

/-- Arithmetic mean `sum(grades) / len(grades)` as a rational. -/
def mean (gs : List Int) : ℚ :=
  (gs.sum : ℚ) / (gs.length : ℚ)

/-- Python's `max(x :: xs, key := k)`: scans left to right and replaces the
current maximum only on a strictly larger key, so the first of several
elements with the maximal key wins. -/
def pymaxBy {α : Type} (k : α → ℚ) (x : α) (xs : List α) : α :=
  xs.foldl (fun acc y => if k acc < k y then y else acc) x

/-- Python's `max` on a nonempty list of rationals. -/
def pymax (x : ℚ) (xs : List ℚ) : ℚ :=
  pymaxBy id x xs

/-- Python's `min` on a nonempty list of rationals. -/
def pymin (x : ℚ) (xs : List ℚ) : ℚ :=
  xs.foldl (fun acc y => if y < acc then y else acc) x

/-- Result of `find_top_performer`: the printed message is either the
"no students with grades" notice or the top student's name and average. -/
inductive TopResult where
  | noStudents
  | top (s : Student) (average : ℚ)
  deriving DecidableEq, Repr

/-- `find_top_performer` from `lecture_3/main.py`: filters out students with
no grades, then takes Python's `max` by average grade and reports that
student together with their average. -/
def find_top_performer (students : List Student) : TopResult :=
  match students.filter (fun s => !s.grades.isEmpty) with
  | [] => .noStudents
  | s :: rest =>
    let t := pymaxBy (fun st => mean st.grades) s rest
    .top t (mean t.grades)

/-- One line of the per-student part of `show_report`'s output. -/
inductive ReportLine where
  | na (name : List Char)
  | avg (name : List Char) (average : ℚ)
  deriving DecidableEq, Repr

/-- The whole output of `show_report`: the early "No students available."
message, or one line per student plus either summary statistics
(max, min, overall average of the collected averages) or the
"no students with grades" notice when no average was collected. -/
inductive Report where
  | noStudents
  | report (lines : List ReportLine) (summary : Option (ℚ × ℚ × ℚ))
  deriving DecidableEq, Repr

/-- The list `averages` built by `show_report`'s loop: the mean of each
student that has at least one grade, in student order. -/
def report_averages (students : List Student) : List ℚ :=
  (students.filter (fun s => !s.grades.isEmpty)).map (fun s => mean s.grades)

/-- `sum(averages) / len(averages)` in `show_report`. -/
def meanQ (qs : List ℚ) : ℚ :=
  qs.sum / (qs.length : ℚ)

/-- `show_report` from `lecture_3/main.py`. -/
def show_report (students : List Student) : Report :=
  if students.isEmpty then
    .noStudents
  else
    let lines := students.map (fun s =>
      if s.grades.isEmpty then ReportLine.na s.name
      else ReportLine.avg s.name (mean s.grades))
    let summary :=
      match report_averages students with
      | [] => none
      | a :: as => some (pymax a as, pymin a as, meanQ (a :: as))
    .report lines summary

lemma toLower_eq_self_of_digit {c : Char} (h : isDigitChar c = true) :
    c.toLower = c := by
  simp only [isDigitChar, Bool.and_eq_true, decide_eq_true_eq] at h
  unfold Char.toLower
  rw [if_neg]
  omega

lemma pyInt_done_head {c : Char} {rest : List Char}
    (h : Char.toLower c = 'd') : pyInt (c :: rest) = none := by
  have hc1 : c ≠ '+' := fun hEq => absurd h (by subst hEq; decide)
  have hc2 : c ≠ '-' := fun hEq => absurd h (by subst hEq; decide)
  have hd : isDigitChar c = false := by
    by_contra hcon
    have hdig : isDigitChar c = true := by simpa using hcon
    rw [toLower_eq_self_of_digit hdig] at h
    subst h
    exact absurd hdig (by decide)
  unfold pyInt
  split
  · next heq => cases heq; exact absurd rfl hc1
  · next heq => cases heq; exact absurd rfl hc2
  · simp [parseDigits, hd]

lemma grade_step_done {grades : List Int} {inp : List Char}
    (h : lowerStr inp = ['d', 'o', 'n', 'e']) : grade_step grades inp = none := by
  have hne : inp.isEmpty = false := by
    cases inp with
    | nil => cases h
    | cons c cs => rfl
  simp [grade_step, hne, h]

lemma grade_step_none_iff (grades : List Int) (inp : List Char) :
    grade_step grades inp = none ↔ lowerStr inp = ['d', 'o', 'n', 'e'] := by
  constructor
  · intro h
    unfold grade_step at h
    split at h
    · cases h
    · split at h
      · next hbeq => exact beq_iff_eq.mp hbeq
      · split at h
        · split at h <;> cases h
        · cases h
  · exact grade_step_done

lemma grade_step_sound (grades : List Int) (inp : List Char) (gs : List Int)
    (h : grade_step grades inp = some gs) :
    gs = grades ∨ ∃ g, gs = grades ++ [g] ∧ 0 ≤ g ∧ g ≤ 100 := by
  unfold grade_step at h
  split at h
  · exact Or.inl (Option.some.inj h).symm
  · split at h
    · cases h
    · split at h
      · next g hp =>
        split at h
        · exact Or.inl (Option.some.inj h).symm
        · next hrange =>
          refine Or.inr ⟨g, (Option.some.inj h).symm, ?_, ?_⟩ <;>
            · simp only [Bool.or_eq_true, decide_eq_true_eq, not_or] at hrange
              omega
      · exact Or.inl (Option.some.inj h).symm

lemma grade_step_append_iff (grades : List Int) (inp : List Char) (g : Int) :
    grade_step grades inp = some (grades ++ [g]) ↔
      pyInt inp = some g ∧ 0 ≤ g ∧ g ≤ 100 := by
  constructor
  · intro h
    unfold grade_step at h
    split at h
    · exact absurd (Option.some.inj h) (by simp)
    · split at h
      · cases h
      · split at h
        · next g' hp =>
          split at h
          · exact absurd (Option.some.inj h) (by simp)
          · next hrange =>
            have hg : g' = g := by simpa using Option.some.inj h
            subst hg
            simp only [Bool.or_eq_true, decide_eq_true_eq, not_or] at hrange
            exact ⟨hp, by omega, by omega⟩
        · exact absurd (Option.some.inj h) (by simp)
  · rintro ⟨hp, h0, h1⟩
    have hne : inp.isEmpty = false := by
      cases inp with
      | nil => rw [show pyInt [] = none from rfl] at hp; cases hp
      | cons c cs => rfl
    have hdone : (lowerStr inp == ['d', 'o', 'n', 'e']) = false := by
      rw [beq_eq_false_iff_ne]
      intro hcontra
      cases inp with
      | nil => cases hcontra
      | cons c cs =>
        have hc : Char.toLower c = 'd' := by
          have := congrArg (fun l => l.headI) hcontra
          simpa [lowerStr] using this
        rw [pyInt_done_head hc] at hp
        cases hp
    have hrange : (decide (g < 0) || decide (100 < g)) = false := by
      simp only [Bool.or_eq_false_iff, decide_eq_false_iff_not]
      omega
    simp [grade_step, hne, hdone, hp, hrange]

lemma add_grades_loop_inv (inputs : List (List Char)) (grades : List Int)
    (h : ∀ g ∈ grades, 0 ≤ g ∧ g ≤ 100) :
    ∀ g ∈ add_grades_loop grades inputs, 0 ≤ g ∧ g ≤ 100 := by
  induction inputs generalizing grades with
  | nil => exact h
  | cons inp rest ih =>
    cases hs : grade_step grades inp with
    | none => simpa [add_grades_loop, hs] using h
    | some gs =>
      simp only [add_grades_loop, hs]
      apply ih
      rcases grade_step_sound grades inp gs hs with h1 | ⟨g, h1, hg0, hg1⟩
      · subst h1; exact h
      · subst h1
        intro z hz
        rcases List.mem_append.mp hz with hz | hz
        · exact h z hz
        · rw [List.mem_singleton.mp hz]
          exact ⟨hg0, hg1⟩

end GradeTracker

namespace BookAPI

/-- A row of the `books` table (`BookDB` in `lecture_5/book_api/main.py`):
integer primary key `id`, required `title` and `author`, nullable `year`. -/
structure Book where
  id : Int
  title : List Char
  author : List Char
  year : Option Int
  deriving DecidableEq, Repr

/-- The persisted table, in insertion order (SQLite returns rows of this
table in rowid order, which coincides with insertion order here). -/
abbrev DB := List Book

/-- The ids currently present in the table. -/
def ids (db : DB) : List Int :=
  db.map Book.id

/-- The id SQLite assigns to the next inserted row for an `Integer`
primary key without `AUTOINCREMENT`: one more than the largest rowid
currently in the table, and `1` when the table is empty. -/
def nextId (db : DB) : Int :=
  db.foldl (fun m b => max m b.id) 0 + 1

/-- A validated `BookCreate` body (`title: str`, `author: str`,
`year: Optional[int] = None`). -/
structure BookCreate where
  title : List Char
  author : List Char
  year : Option Int
  deriving DecidableEq, Repr

/-- A raw POST body as the Pydantic layer sees it: `none` in a required
field means the field was missing from the JSON object (or was `null`,
which `str` equally rejects); `year` is optional with default `None`. -/
structure RawCreate where
  title : Option (List Char)
  author : Option (List Char)
  year : Option Int
  deriving DecidableEq, Repr

/-- Pydantic validation of `BookCreate`: both required fields must be
present (any string, the empty string included); otherwise FastAPI answers
422 before the handler runs. -/
def validate_create (r : RawCreate) : Option BookCreate :=
  match r.title, r.author with
  | some t, some a => some ⟨t, a, r.year⟩
  | _, _ => none

/-- `create_book` from `lecture_5/book_api/main.py`: inserts a new row
built from the request body, letting the database assign the id, and
returns the refreshed row. -/
def create_book (db : DB) (book : BookCreate) : DB × Book :=
  let db_book : Book := ⟨nextId db, book.title, book.author, book.year⟩
  (db ++ [db_book], db_book)

/-- Outcome of `POST /books/` as seen by the client. -/
inductive CreateResult where
  | err422
  | created (b : Book)
  deriving DecidableEq, Repr

/-- The whole `POST /books/` exchange: Pydantic validation, then the
`create_book` handler. -/
def post_books (db : DB) (r : RawCreate) : DB × CreateResult :=
  match validate_create r with
  | none => (db, .err422)
  | some book =>
    let p := create_book db book
    (p.1, .created p.2)

/-- `get_all_books`: `db.query(BookDB).all()`. -/
def get_all_books (db : DB) : List Book :=
  db

/-- All suffixes of a string, longest first (used to expand a `%`). -/
def suffixes : List Char → List (List Char)
  | [] => [[]]
  | c :: s => (c :: s) :: suffixes s

/-- SQLite's default `LIKE` matcher (the backend is hardcoded to
`sqlite:///./books.db`, and the handlers pass no `ESCAPE`): `%` matches
any sequence of characters, `_` matches exactly one character, and any
other character matches case-insensitively for ASCII letters (SQLite
folds only `A`–`Z`, which is exactly `Char.toLower`'s range). -/
def likeMatch : List Char → List Char → Bool
  | [], s => s.isEmpty
  | '%' :: ps, s => (suffixes s).any fun s2 => likeMatch ps s2
  | '_' :: _, [] => false
  | '_' :: ps, _ :: s2 => likeMatch ps s2
  | _ :: _, [] => false
  | p :: ps, c :: s2 => (p.toLower == c.toLower) && likeMatch ps s2

/-- The column filter generated by `Column.contains(pat)`:
`LIKE '%' || pat || '%'` evaluated by SQLite.  Note the supplied value is
spliced into the pattern unescaped, so `%` and `_` inside it act as
wildcards. -/
def likeContains (pat s : List Char) : Bool :=
  likeMatch ('%' :: (pat ++ ['%'])) s

/-- `search_books` from `lecture_5/book_api/main.py`: starts from the full
table and adds one filter per parameter, but guarded by Python truthiness
(`if title:` / `if author:` / `if year:`), so an empty string or a zero
year leaves its filter off.  Title and author filter through SQLite's
`LIKE '%pat%'`; a `NULL` stored year never equals an integer in SQL,
hence the `b.year == some y` comparison. -/
def search_books (db : DB) (title author : Option (List Char))
    (year : Option Int) : List Book :=
  let q := db
  let q := match title with
    | some t => if t.isEmpty then q else q.filter (fun b => likeContains t b.title)
    | none => q
  let q := match author with
    | some a => if a.isEmpty then q else q.filter (fun b => likeContains a b.author)
    | none => q
  let q := match year with
    | some y => if y = 0 then q else q.filter (fun b => b.year == some y)
    | none => q
  q

/-- The claim's title/author matcher, written from the spec's words:
case-sensitive literal substring containment ("`title`/`author` match as
case-sensitive substring containment").  Kept separate from the code's
`likeContains` so the two can be compared. -/
def csSubstring (pat : List Char) : List Char → Bool
  | [] => pat.isEmpty
  | c :: rest => pat.isPrefixOf (c :: rest) || csSubstring pat rest

/-- The claim's search predicate, from the spec's words: conjunction of
the supplied filters, title and author by case-sensitive substring
containment, year by exact equality; an absent filter accepts
everything. -/
def spec_matches_cs (title author : Option (List Char)) (year : Option Int)
    (b : Book) : Bool :=
  (match title with
    | some t => csSubstring t b.title
    | none => true) &&
  (match author with
    | some a => csSubstring a b.author
    | none => true) &&
  (match year with
    | some y => b.year == some y
    | none => true)

/-- The search the original claim describes: exactly the books satisfying
the conjunction of the supplied filters under `spec_matches_cs`. -/
def spec_search_cs (db : DB) (title author : Option (List Char))
    (year : Option Int) : List Book :=
  db.filter (fun b => spec_matches_cs title author year b)

/-- The amended claim's search predicate: the conjunction of the supplied
filters, title and author by SQLite's `LIKE '%pat%'` matching, year by
exact equality; an absent filter accepts everything. -/
def spec_matches (title author : Option (List Char)) (year : Option Int)
    (b : Book) : Bool :=
  (match title with
    | some t => likeContains t b.title
    | none => true) &&
  (match author with
    | some a => likeContains a b.author
    | none => true) &&
  (match year with
    | some y => b.year == some y
    | none => true)

/-- The search the amended claim describes: exactly the books satisfying
the conjunction of the supplied filters under `spec_matches`. -/
def spec_search (db : DB) (title author : Option (List Char))
    (year : Option Int) : List Book :=
  db.filter (fun b => spec_matches title author year b)

/-- A supplied-but-empty string filter, as normalised by the code's
truthiness test. -/
def normStr : Option (List Char) → Option (List Char)
  | some s => if s.isEmpty then none else some s
  | none => none

/-- A supplied-but-zero year filter, as normalised by the code's
truthiness test. -/
def normInt : Option Int → Option Int
  | some y => if y = 0 then none else some y
  | none => none

/-- A PUT body (`BookUpdate`): all three fields optional; the handler
cannot distinguish a field sent as `null` from a missing field, both
arrive as `None`. -/
structure BookUpdate where
  title : Option (List Char)
  author : Option (List Char)
  year : Option Int
  deriving DecidableEq, Repr

/-- The field-by-field copy in `update_book`: each `is not None` field
overwrites, each `None` field is left alone. -/
def apply_update (u : BookUpdate) (b : Book) : Book :=
  { b with
    title := match u.title with | some t => t | none => b.title
    author := match u.author with | some a => a | none => b.author
    year := match u.year with | some y => some y | none => b.year }

/-- Outcome of `PUT /books/{id}` as seen by the client. -/
inductive UpdateResult where
  | notFound
  | updated (b : Book)
  deriving DecidableEq, Repr

/-- In-place mutation of the first row with the given id (the row object
returned by `.filter(BookDB.id == book_id).first()`). -/
def update_first (book_id : Int) (u : BookUpdate) : DB → DB
  | [] => []
  | b :: rest =>
    if b.id = book_id then apply_update u b :: rest
    else b :: update_first book_id u rest

/-- `update_book` from `lecture_5/book_api/main.py`: 404 when no row has
the id, otherwise overwrite exactly the supplied fields, commit, and
return the refreshed row. -/
def update_book (db : DB) (book_id : Int) (u : BookUpdate) :
    DB × UpdateResult :=
  match db.find? (fun b => b.id == book_id) with
  | none => (db, .notFound)
  | some b => (update_first book_id u db, .updated (apply_update u b))

/-- Outcome of `DELETE /books/{id}` as seen by the client. -/
inductive DeleteResult where
  | notFound
  | deleted
  deriving DecidableEq, Repr

/-- Removal of the first row with the given id. -/
def delete_first (book_id : Int) : DB → DB
  | [] => []
  | b :: rest =>
    if b.id = book_id then rest
    else b :: delete_first book_id rest

/-- `delete_book` from `lecture_5/book_api/main.py`: 404 when no row has
the id, otherwise delete the row and commit. -/
def delete_book (db : DB) (book_id : Int) : DB × DeleteResult :=
  match db.find? (fun b => b.id == book_id) with
  | none => (db, .notFound)
  | some _ => (delete_first book_id db, .deleted)

/-- A create or delete request, for reasoning about request sequences. -/
inductive Op where
  | create (book : BookCreate)
  | delete (book_id : Int)
  deriving DecidableEq, Repr

/-- Run a sequence of create/delete requests against the table. -/
def run_ops (db : DB) : List Op → DB
  | [] => db
  | .create book :: rest => run_ops (create_book db book).1 rest
  | .delete book_id :: rest => run_ops (delete_book db book_id).1 rest

lemma filter_and {α : Type} (l : List α) (p q : α → Bool) :
    (l.filter p).filter q = l.filter fun a => p a && q a := by
  induction l with
  | nil => rfl
  | cons x xs ih =>
    by_cases hp : p x <;> by_cases hq : q x <;>
      simp [List.filter_cons, hp, hq, ih]

lemma init_le_foldl_max (l : List Book) (init : Int) :
    init ≤ l.foldl (fun m b => max m b.id) init := by
  induction l generalizing init with
  | nil => exact le_refl _
  | cons b bs ih => exact le_trans (le_max_left _ _) (ih (max init b.id))

lemma mem_le_foldl_max {l : List Book} {b : Book} (hb : b ∈ l) (init : Int) :
    b.id ≤ l.foldl (fun m x => max m x.id) init := by
  induction l generalizing init with
  | nil => cases hb
  | cons x xs ih =>
    rcases List.mem_cons.mp hb with h | h
    · subst h
      exact le_trans (le_max_right init b.id) (init_le_foldl_max xs _)
    · exact ih h _

lemma id_lt_nextId {db : DB} {b : Book} (hb : b ∈ db) : b.id < nextId db :=
  lt_of_le_of_lt (mem_le_foldl_max hb 0) (lt_add_one _)

lemma nextId_not_mem (db : DB) : nextId db ∉ ids db := by
  intro h
  obtain ⟨b, hb, hEq⟩ := List.mem_map.mp h
  exact absurd hEq (ne_of_lt (id_lt_nextId hb))

lemma find?_id_eq_none {db : DB} {book_id : Int} (h : book_id ∉ ids db) :
    db.find? (fun b => b.id == book_id) = none := by
  rw [List.find?_eq_none]
  intro b hb
  simp only [beq_iff_eq]
  intro hEq
  exact h (hEq ▸ List.mem_map_of_mem Book.id hb)

lemma find?_id_split {db : DB} {book_id : Int} {b : Book}
    (h : db.find? (fun x => x.id == book_id) = some b) :
    b.id = book_id ∧ ∃ l1 l2, db = l1 ++ b :: l2 ∧ ∀ x ∈ l1, x.id ≠ book_id := by
  induction db with
  | nil => cases h
  | cons x xs ih =>
    by_cases hx : (x.id == book_id) = true
    · simp only [List.find?, hx] at h
      injection h with h
      subst h
      exact ⟨by simpa using hx, [], xs, rfl, by simp⟩
    · have hx' : (x.id == book_id) = false := by simpa using hx
      simp only [List.find?, hx'] at h
      obtain ⟨hid, l1, l2, hdec, hl1⟩ := ih h
      refine ⟨hid, x :: l1, l2, by rw [hdec]; rfl, ?_⟩
      intro z hz
      rcases List.mem_cons.mp hz with h1 | h1
      · subst h1; simpa using hx
      · exact hl1 z h1

lemma update_first_append {l1 l2 : DB} {b : Book} {book_id : Int} (u : BookUpdate)
    (hl1 : ∀ x ∈ l1, x.id ≠ book_id) (hb : b.id = book_id) :
    update_first book_id u (l1 ++ b :: l2) = l1 ++ apply_update u b :: l2 := by
  induction l1 with
  | nil => simp [update_first, hb]
  | cons x xs ih =>
    have hx : x.id ≠ book_id := hl1 x (List.mem_cons_self x xs)
    simp [update_first, hx, ih fun z hz => hl1 z (List.mem_cons_of_mem x hz)]

lemma not_mem_ids_delete_first {db : DB} {d : Int} (h : (ids db).Nodup) :
    d ∉ ids (delete_first d db) := by
  induction db with
  | nil => simp [delete_first, ids]
  | cons b bs ih =>
    obtain ⟨hb, hbs⟩ := List.nodup_cons.mp h
    by_cases hd : b.id = d
    · subst hd
      simpa [delete_first, ids] using hb
    · intro hmem
      simp only [delete_first, if_neg hd, ids, List.map_cons, List.mem_cons] at hmem
      rcases hmem with h1 | h1
      · exact hd h1.symm
      · exact ih hbs h1

end BookAPI

open GradeTracker BookAPI

/-- Claim C5: adding a student with an empty name or a case-insensitive
duplicate name leaves the student collection unchanged and reports the
failure; otherwise exactly one new record with that name and an empty grade
list is appended, with all existing records intact. -/
theorem add_new_student_correct (students : List Student) (name : List Char) :
    ((name = [] ∨ ∃ s ∈ students, lowerStr s.name = lowerStr name) →
      (add_new_student students name).1 = students) ∧
    (name = [] → (add_new_student students name).2 = .emptyName) ∧
    (name ≠ [] → (∃ s ∈ students, lowerStr s.name = lowerStr name) →
      (add_new_student students name).2 = .duplicate) ∧
    (name ≠ [] → (∀ s ∈ students, lowerStr s.name ≠ lowerStr name) →
      add_new_student students name = (students ++ [⟨name, []⟩], .added)) := by
  by_cases hname : name = []
  · subst hname
    simp [add_new_student]
  · have hne : name.isEmpty = false := by
      cases name with
      | nil => exact absurd rfl hname
      | cons c cs => rfl
    by_cases hdup : ∃ s ∈ students, lowerStr s.name = lowerStr name
    · have hany : students.any (fun s => lowerStr s.name == lowerStr name) = true := by
        rw [List.any_eq_true]
        obtain ⟨s, hs, hEq⟩ := hdup
        exact ⟨s, hs, by simpa using hEq⟩
      simp [add_new_student, hne, hany, hname, hdup]
    · have hany : students.any (fun s => lowerStr s.name == lowerStr name) = false := by
        rw [List.any_eq_false]
        intro s hs
        simp only [beq_iff_eq]
        exact fun hEq => hdup ⟨s, hs, hEq⟩
      push_neg at hdup
      have hres : add_new_student students name = (students ++ [⟨name, []⟩], .added) := by
        simp [add_new_student, hne, hany]
      refine ⟨?_, fun h => absurd h hname, ?_, fun _ _ => hres⟩
      · rintro (h | ⟨s, hs, hEq⟩)
        · exact absurd h hname
        · exact absurd hEq (hdup s hs)
      · rintro _ ⟨s, hs, hEq⟩
        exact absurd hEq (hdup s hs)

/-- Witness for C5 at concrete inputs: `"aNN"` collides with stored `"Ann"`
and is rejected without touching the collection; `"Bob"` is appended. -/
theorem add_new_student_correct_witness :
    (add_new_student [⟨['A','n','n'], [90]⟩] ['a','N','N']).1 =
      [⟨['A','n','n'], [90]⟩] ∧
    (add_new_student [⟨['A','n','n'], [90]⟩] ['a','N','N']).2 = .duplicate ∧
    add_new_student [⟨['A','n','n'], [90]⟩] ['B','o','b'] =
      ([⟨['A','n','n'], [90]⟩, ⟨['B','o','b'], []⟩], .added) := by
  refine ⟨(add_new_student_correct _ _).1 (Or.inr ?_),
    (add_new_student_correct [⟨['A','n','n'], [90]⟩] ['a','N','N']).2.2.1
      (by decide) ?_,
    (add_new_student_correct [⟨['A','n','n'], [90]⟩] ['B','o','b']).2.2.2
      (by decide) (by decide)⟩
  · exact ⟨⟨['A','n','n'], [90]⟩, by decide, by decide⟩
  · exact ⟨⟨['A','n','n'], [90]⟩, by decide, by decide⟩

/-- Claim C1 (corrected): `search_books` applies its filters under Python
truthiness, so besides an absent parameter, a supplied empty-string title
or author and a supplied `year = 0` also leave their filter off; on the
remaining (nonempty, nonzero) filters the result is exactly the set of
books satisfying the conjunction, title and author by SQLite's
`LIKE '%pat%'` matching (ASCII case-insensitive, `%`/`_` in the supplied
value acting as wildcards) and year by exact equality. -/
theorem search_books_truthy_filters (db : DB) (title author : Option (List Char))
    (year : Option Int) :
    search_books db title author year =
      spec_search db (normStr title) (normStr author) (normInt year) := by
  rcases title with _ | t <;> rcases author with _ | a <;> rcases year with _ | y <;>
    · simp only [search_books, spec_search, normStr, normInt]
      try split_ifs
      all_goals
        try simp only [filter_and]
      all_goals
        simp [spec_matches]

/-- Counterexample to C1 as stated, against the claim's own predicate
(conjunction of supplied filters, case-sensitive substring containment,
exact year equality): with the single stored book `⟨1, "Dune", "H", 1965⟩`,
(1) a search that supplies `year = 0` returns the whole collection, not
the (empty) set of books whose year equals `0`; and (2) a search for title
`"dune"` returns the book even though `"dune"` is not a case-sensitive
substring of `"Dune"` — SQLite's `LIKE` is ASCII case-insensitive. -/
theorem search_books_claim_cex :
    (search_books [⟨1, ['D','u','n','e'], ['H'], some 1965⟩] none none (some 0) ≠
      spec_search_cs [⟨1, ['D','u','n','e'], ['H'], some 1965⟩] none none (some 0)) ∧
    (search_books [⟨1, ['D','u','n','e'], ['H'], some 1965⟩]
        (some ['d','u','n','e']) none none ≠
      spec_search_cs [⟨1, ['D','u','n','e'], ['H'], some 1965⟩]
        (some ['d','u','n','e']) none none) := by
  constructor <;> decide

/-- Claim C2 (corrected): a POST body missing `title` or `author` is
rejected with 422 and persists nothing; any body carrying both strings —
the empty string included — is accepted: the row is appended with the
fresh id `nextId`, which is not used by any existing row, and the created
record is returned. -/
theorem post_books_validation (db : DB) (r : RawCreate) :
    ((r.title = none ∨ r.author = none) → post_books db r = (db, .err422)) ∧
    (∀ t a, r.title = some t → r.author = some a →
      post_books db r =
        (db ++ [⟨nextId db, t, a, r.year⟩], .created ⟨nextId db, t, a, r.year⟩) ∧
      nextId db ∉ ids db) := by
  constructor
  · rintro (h | h) <;> rcases ht : r.title with _ | t <;>
      simp [post_books, validate_create, h, ht]
  · intro t a ht ha
    exact ⟨by simp [post_books, validate_create, ht, ha, create_book],
      nextId_not_mem db⟩

/-- Counterexample to C2 as stated: a body with `title = ""` is not
rejected with 422, and it persists a row. -/
theorem post_books_empty_title_cex :
    (post_books [] ⟨some [], some ['H'], none⟩).2 ≠ .err422 ∧
    (post_books [] ⟨some [], some ['H'], none⟩).1 ≠ ([] : DB) := by
  decide

/-- Witness for C2 (amended) at concrete inputs: a body missing `title` is
rejected without change, and a complete body is persisted with id `1`. -/
theorem post_books_validation_witness :
    post_books [] ⟨none, some ['H'], some 1965⟩ = ([], .err422) ∧
    post_books [] ⟨some ['D'], some ['H'], some 1965⟩ =
      ([⟨1, ['D'], ['H'], some 1965⟩], .created ⟨1, ['D'], ['H'], some 1965⟩) ∧
    nextId [] ∉ ids [] :=
  ⟨(post_books_validation [] ⟨none, some ['H'], some 1965⟩).1 (Or.inl rfl),
    (post_books_validation [] ⟨some ['D'], some ['H'], some 1965⟩).2
      ['D'] ['H'] rfl rfl⟩

/-- Claim C7: updating or deleting an id that is not present in the table
answers 404 Not Found and leaves the table completely unchanged. -/
theorem missing_id_not_found (db : DB) (book_id : Int) (u : BookUpdate)
    (h : book_id ∉ ids db) :
    update_book db book_id u = (db, .notFound) ∧
    delete_book db book_id = (db, .notFound) := by
  have hf := find?_id_eq_none h
  exact ⟨by simp [update_book, hf], by simp [delete_book, hf]⟩

/-- Witness for C7: id `2` is absent from a one-row table, so `PUT` and
`DELETE` on it both answer 404 and change nothing. -/
theorem missing_id_not_found_witness :
    update_book [⟨1, ['D'], ['H'], some 1965⟩] 2 ⟨none, none, some 2000⟩ =
      ([⟨1, ['D'], ['H'], some 1965⟩], .notFound) ∧
    delete_book [⟨1, ['D'], ['H'], some 1965⟩] 2 =
      ([⟨1, ['D'], ['H'], some 1965⟩], .notFound) :=
  missing_id_not_found [⟨1, ['D'], ['H'], some 1965⟩] 2 ⟨none, none, some 2000⟩
    (by decide)

/-- Claim C10: a `PUT` body whose `year` arrives as `None` (which is what
both an absent field and an explicit JSON `null` become) leaves the stored
year unchanged, and no update body at all can reset a set year back to
null. -/
theorem update_null_year_no_reset (db : DB) (book_id : Int) (u : BookUpdate)
    (b : Book) (hfind : db.find? (fun x => x.id == book_id) = some b)
    (hy : u.year = none) :
    (update_book db book_id u).2 = .updated (apply_update u b) ∧
    (apply_update u b).year = b.year ∧
    (∀ (u2 : BookUpdate) (v : Int), b.year = some v →
      (apply_update u2 b).year ≠ none) := by
  refine ⟨by simp [update_book, hfind], by simp [apply_update, hy], ?_⟩
  intro u2 v hv
  cases h2 : u2.year <;> simp [apply_update, h2, hv]

/-- Witness for C10: updating the one stored book with an all-`None` body
keeps its year `1965`. -/
theorem update_null_year_no_reset_witness :
    (update_book [⟨1, ['D'], ['H'], some 1965⟩] 1 ⟨none, none, none⟩).2 =
      .updated (apply_update ⟨none, none, none⟩ ⟨1, ['D'], ['H'], some 1965⟩) ∧
    (apply_update ⟨none, none, none⟩ ⟨1, ['D'], ['H'], some 1965⟩).year =
      some 1965 ∧
    (∀ (u2 : BookUpdate) (v : Int), (some 1965 : Option Int) = some v →
      (apply_update u2 ⟨1, ['D'], ['H'], some 1965⟩).year ≠ none) :=
  update_null_year_no_reset [⟨1, ['D'], ['H'], some 1965⟩] 1 ⟨none, none, none⟩
    ⟨1, ['D'], ['H'], some 1965⟩ (by decide) rfl

/-- Claim C8: updating an existing book overwrites exactly the supplied
fields, keeps every absent field (in particular title and author under a
year-only update) and the id, persists the updated row in place, and
returns it. -/
theorem update_book_partial_update (db : DB) (book_id : Int) (u : BookUpdate)
    (b : Book) (hfind : db.find? (fun x => x.id == book_id) = some b) :
    (update_book db book_id u).2 = .updated (apply_update u b) ∧
    (apply_update u b).id = b.id ∧
    (u.title = none → (apply_update u b).title = b.title) ∧
    (∀ t, u.title = some t → (apply_update u b).title = t) ∧
    (u.author = none → (apply_update u b).author = b.author) ∧
    (∀ a, u.author = some a → (apply_update u b).author = a) ∧
    (u.year = none → (apply_update u b).year = b.year) ∧
    (∀ y, u.year = some y → (apply_update u b).year = some y) ∧
    ∃ l1 l2, db = l1 ++ b :: l2 ∧
      (update_book db book_id u).1 = l1 ++ apply_update u b :: l2 := by
  obtain ⟨hid, l1, l2, hdec, hl1⟩ := find?_id_split hfind
  refine ⟨by simp [update_book, hfind], rfl,
    fun h => by simp [apply_update, h], fun t h => by simp [apply_update, h],
    fun h => by simp [apply_update, h], fun a h => by simp [apply_update, h],
    fun h => by simp [apply_update, h], fun y h => by simp [apply_update, h],
    l1, l2, hdec, ?_⟩
  simp only [update_book, hfind]
  rw [hdec]
  exact update_first_append u hl1 hid

/-- Witness for C8: a year-only update of the one stored book keeps its
title, author and id, and stores the new year. -/
theorem update_book_partial_update_witness :
    (update_book [⟨1, ['D'], ['H'], some 1960⟩] 1 ⟨none, none, some 1965⟩).2 =
      .updated (apply_update ⟨none, none, some 1965⟩ ⟨1, ['D'], ['H'], some 1960⟩) ∧
    (apply_update ⟨none, none, some 1965⟩ ⟨1, ['D'], ['H'], some 1960⟩).id = 1 ∧
    ((⟨none, none, some 1965⟩ : BookUpdate).title = none →
      (apply_update ⟨none, none, some 1965⟩ ⟨1, ['D'], ['H'], some 1960⟩).title = ['D']) ∧
    (∀ t, (⟨none, none, some 1965⟩ : BookUpdate).title = some t →
      (apply_update ⟨none, none, some 1965⟩ ⟨1, ['D'], ['H'], some 1960⟩).title = t) ∧
    ((⟨none, none, some 1965⟩ : BookUpdate).author = none →
      (apply_update ⟨none, none, some 1965⟩ ⟨1, ['D'], ['H'], some 1960⟩).author = ['H']) ∧
    (∀ a, (⟨none, none, some 1965⟩ : BookUpdate).author = some a →
      (apply_update ⟨none, none, some 1965⟩ ⟨1, ['D'], ['H'], some 1960⟩).author = a) ∧
    ((⟨none, none, some 1965⟩ : BookUpdate).year = none →
      (apply_update ⟨none, none, some 1965⟩ ⟨1, ['D'], ['H'], some 1960⟩).year = some 1960) ∧
    (∀ y, (⟨none, none, some 1965⟩ : BookUpdate).year = some y →
      (apply_update ⟨none, none, some 1965⟩ ⟨1, ['D'], ['H'], some 1960⟩).year = some y) ∧
    ∃ l1 l2, [⟨1, ['D'], ['H'], some 1960⟩] = l1 ++ (⟨1, ['D'], ['H'], some 1960⟩ : Book) :: l2 ∧
      (update_book [⟨1, ['D'], ['H'], some 1960⟩] 1 ⟨none, none, some 1965⟩).1 =
        l1 ++ apply_update ⟨none, none, some 1965⟩ ⟨1, ['D'], ['H'], some 1960⟩ :: l2 :=
  update_book_partial_update [⟨1, ['D'], ['H'], some 1960⟩] 1
    ⟨none, none, some 1965⟩ ⟨1, ['D'], ['H'], some 1960⟩ (by decide)

/-- Claim C9 (corrected): ids are assigned only at creation, as one more
than the largest id present (1 for an empty table); hence a deleted id is
not handed out again while a row with an id at least as large remains, but
deleting the largest id does allow the next creation to reuse it.  A
deleted id is absent from list-all (given the table's ids are distinct,
which the primary key enforces), and update/delete on an absent id answer
404 without change. -/
theorem book_id_allocation (db : DB) (book : BookCreate) (d : Int)
    (u : BookUpdate) :
    (create_book db book).2.id = nextId db ∧
    (create_book db book).2.id ∉ ids db ∧
    ((∃ b ∈ db, d ≤ b.id) → (create_book db book).2.id ≠ d) ∧
    ((ids db).Nodup → d ∉ ids (delete_book db d).1) ∧
    (d ∉ ids db → update_book db d u = (db, .notFound) ∧
      delete_book db d = (db, .notFound)) := by
  refine ⟨rfl, nextId_not_mem db, ?_, ?_, ?_⟩
  · rintro ⟨b, hb, hle⟩ hEq
    have hlt : b.id < nextId db := id_lt_nextId hb
    have hEq2 : nextId db = d := hEq
    omega
  · intro hnd
    cases hf : db.find? (fun b => b.id == d) with
    | none =>
      simp only [delete_book, hf]
      rw [List.find?_eq_none] at hf
      intro hmem
      obtain ⟨b, hb, hEq⟩ := List.mem_map.mp hmem
      exact hf b hb (by simp [hEq])
    | some b =>
      simp only [delete_book, hf]
      exact not_mem_ids_delete_first hnd
  · intro h
    have hf := find?_id_eq_none h
    exact ⟨by simp [update_book, hf], by simp [delete_book, hf]⟩

/-- Counterexample to C9 as stated: create two books (ids 1 and 2), delete
id 2; the next creation assigns id 2 again, so a deleted id is reused. -/
theorem deleted_id_reuse_cex :
    (2 : Int) ∈ ids (run_ops []
      [.create ⟨['a'], ['b'], none⟩, .create ⟨['c'], ['d'], none⟩]) ∧
    (delete_book (run_ops []
      [.create ⟨['a'], ['b'], none⟩, .create ⟨['c'], ['d'], none⟩]) 2).2 = .deleted ∧
    (2 : Int) ∉ ids (run_ops []
      [.create ⟨['a'], ['b'], none⟩, .create ⟨['c'], ['d'], none⟩, .delete 2]) ∧
    (create_book (run_ops []
      [.create ⟨['a'], ['b'], none⟩, .create ⟨['c'], ['d'], none⟩, .delete 2])
      ⟨['e'], ['f'], none⟩).2.id = 2 := by
  decide

/-- Witness for C9 (amended) on a table with ids 1 and 5: the new creation
does not reuse 3, deleting 3 leaves it absent, and updating the absent id 3
answers 404 without change. -/
theorem book_id_allocation_witness :
    (create_book [⟨1, ['D'], ['H'], none⟩, ⟨5, ['E'], ['K'], none⟩]
      ⟨['N'], ['M'], none⟩).2.id ≠ 3 ∧
    (3 : Int) ∉ ids (delete_book [⟨1, ['D'], ['H'], none⟩, ⟨5, ['E'], ['K'], none⟩] 3).1 ∧
    update_book [⟨1, ['D'], ['H'], none⟩, ⟨5, ['E'], ['K'], none⟩] 3 ⟨none, none, none⟩ =
      ([⟨1, ['D'], ['H'], none⟩, ⟨5, ['E'], ['K'], none⟩], .notFound) :=
  ⟨(book_id_allocation [⟨1, ['D'], ['H'], none⟩, ⟨5, ['E'], ['K'], none⟩]
      ⟨['N'], ['M'], none⟩ 3 ⟨none, none, none⟩).2.2.1
      ⟨⟨5, ['E'], ['K'], none⟩, by decide, by decide⟩,
    (book_id_allocation [⟨1, ['D'], ['H'], none⟩, ⟨5, ['E'], ['K'], none⟩]
      ⟨['N'], ['M'], none⟩ 3 ⟨none, none, none⟩).2.2.2.1 (by decide),
    ((book_id_allocation [⟨1, ['D'], ['H'], none⟩, ⟨5, ['E'], ['K'], none⟩]
      ⟨['N'], ['M'], none⟩ 3 ⟨none, none, none⟩).2.2.2.2 (by decide)).1⟩

/-- Claim C6: in the grade-entry loop, the loop terminates exactly on an
input lowercasing to `"done"` (which discards the rest of the input);
every other input keeps the loop running; an entry is appended exactly
when it parses as an integer in `[0, 100]`, and any other non-`"done"`
input leaves the grades unchanged or appends one in-range grade;
consequently, if every stored grade was in range, every grade stored
after any interaction still is. -/
theorem add_grades_correct (grades : List Int) (inp : List Char)
    (inputs : List (List Char)) :
    (grade_step grades inp = none ↔ lowerStr inp = ['d', 'o', 'n', 'e']) ∧
    (lowerStr inp = ['d', 'o', 'n', 'e'] →
      add_grades_loop grades (inp :: inputs) = grades) ∧
    (lowerStr inp ≠ ['d', 'o', 'n', 'e'] →
      ∃ gs, grade_step grades inp = some gs ∧
        add_grades_loop grades (inp :: inputs) = add_grades_loop gs inputs) ∧
    (∀ g, grade_step grades inp = some (grades ++ [g]) ↔
      pyInt inp = some g ∧ 0 ≤ g ∧ g ≤ 100) ∧
    (∀ gs, grade_step grades inp = some gs →
      gs = grades ∨ ∃ g, gs = grades ++ [g] ∧ 0 ≤ g ∧ g ≤ 100) ∧
    ((∀ g ∈ grades, 0 ≤ g ∧ g ≤ 100) →
      ∀ g ∈ add_grades_loop grades inputs, 0 ≤ g ∧ g ≤ 100) := by
  refine ⟨grade_step_none_iff grades inp, fun h => ?_, fun h => ?_,
    fun g => grade_step_append_iff grades inp g,
    fun gs h => grade_step_sound grades inp gs h,
    fun h => add_grades_loop_inv inputs grades h⟩
  · simp [add_grades_loop, grade_step_done h]
  · cases hs : grade_step grades inp with
    | none => exact absurd ((grade_step_none_iff grades inp).mp hs) h
    | some gs => exact ⟨gs, rfl, by simp [add_grades_loop, hs]⟩

/-- Witness for C6 at concrete inputs: `"75"` is appended to `[50]`,
`"DONE"` stops the loop at once, the non-`"done"` input `"x"` keeps the
loop running (and is not a termination input), and after the run
`["75", "x", "101", "done", "99"]` every stored grade is in range. -/
theorem add_grades_correct_witness :
    grade_step [50] ['7', '5'] = some ([50] ++ [75]) ∧
    add_grades_loop [50] (['D', 'O', 'N', 'E'] :: [['9', '9']]) = [50] ∧
    (∃ gs, grade_step [50] ['x'] = some gs ∧
      add_grades_loop [50] (['x'] :: [['9', '9']]) =
        add_grades_loop gs [['9', '9']]) ∧
    ¬ grade_step [50] ['x'] = none ∧
    (∀ g ∈ add_grades_loop [50]
      [['7', '5'], ['x'], ['1', '0', '1'], ['d', 'o', 'n', 'e'], ['9', '9']],
      0 ≤ g ∧ g ≤ 100) :=
  ⟨((add_grades_correct [50] ['7', '5'] []).2.2.2.1 75).mpr
      ⟨by decide, by decide, by decide⟩,
    (add_grades_correct [50] ['D', 'O', 'N', 'E'] [['9', '9']]).2.1 (by decide),
    (add_grades_correct [50] ['x'] [['9', '9']]).2.2.1 (by decide),
    fun hnone => absurd ((add_grades_correct [50] ['x'] [['9', '9']]).1.mp hnone)
      (by decide),
    (add_grades_correct [50] []
      [['7', '5'], ['x'], ['1', '0', '1'], ['d', 'o', 'n', 'e'], ['9', '9']]).2.2.2.2.2
      (by decide)⟩

lemma pymaxBy_cons {α : Type} (k : α → ℚ) (x y : α) (xs : List α) :
    pymaxBy k x (y :: xs) = pymaxBy k (if k x < k y then y else x) xs := rfl

lemma pymaxBy_spec {α : Type} (k : α → ℚ) (xs : List α) :
    ∀ x : α,
      (∀ y ∈ x :: xs, k y ≤ k (pymaxBy k x xs)) ∧
      ∃ l1 l2, x :: xs = l1 ++ pymaxBy k x xs :: l2 ∧
        ∀ y ∈ l1, k y < k (pymaxBy k x xs) := by
  induction xs with
  | nil =>
    intro x
    refine ⟨?_, [], [], rfl, by simp⟩
    intro y hy
    rw [List.mem_singleton.mp hy]
    exact le_refl _
  | cons y ys ih =>
    intro x
    rw [pymaxBy_cons]
    by_cases h : k x < k y
    · rw [if_pos h]
      obtain ⟨hub, l1, l2, hdec, hlt⟩ := ih y
      have hyr : k y ≤ k (pymaxBy k y ys) := hub y (List.mem_cons_self y ys)
      refine ⟨?_, x :: l1, l2, ?_, ?_⟩
      · intro z hz
        rcases List.mem_cons.mp hz with h1 | h1
        · subst h1; exact le_of_lt (lt_of_lt_of_le h hyr)
        · exact hub z h1
      · rw [List.cons_append, ← hdec]
      · intro z hz
        rcases List.mem_cons.mp hz with h1 | h1
        · subst h1; exact lt_of_lt_of_le h hyr
        · exact hlt z h1
    · rw [if_neg h]
      push_neg at h
      obtain ⟨hub, l1, l2, hdec, hlt⟩ := ih x
      set r := pymaxBy k x ys with hr
      have hxr : k x ≤ k r := hub x (List.mem_cons_self x ys)
      refine ⟨?_, ?_⟩
      · intro z hz
        rcases List.mem_cons.mp hz with h1 | h1
        · subst h1; exact hxr
        · rcases List.mem_cons.mp h1 with h2 | h2
          · subst h2; exact le_trans h hxr
          · exact hub z (List.mem_cons_of_mem x h2)
      · cases l1 with
        | nil =>
          have hx : x = r := by
            have h2 := hdec
            rw [List.nil_append] at h2
            exact (List.cons.inj h2).1
          exact ⟨[], y :: ys, by rw [List.nil_append, ← hx], by simp⟩
        | cons a l1' =>
          rw [List.cons_append] at hdec
          have h1 := (List.cons.inj hdec).1
          have h2 := (List.cons.inj hdec).2
          subst h1
          have hxlt : k x < k r := hlt x (List.mem_cons_self x l1')
          refine ⟨x :: y :: l1', l2, by rw [h2]; rfl, ?_⟩
          intro z hz
          rcases List.mem_cons.mp hz with hz1 | hz1
          · subst hz1; exact hxlt
          · rcases List.mem_cons.mp hz1 with hz2 | hz2
            · subst hz2; exact lt_of_le_of_lt h hxlt
            · exact hlt z (List.mem_cons_of_mem x hz2)

/-- Claim C3: `find_top_performer` reports the "no students" notice exactly
when no student has a grade; otherwise it reports a qualifying student
together with their exact mean, every qualifying student's mean is at most
the reported one, and all qualifying students strictly before the reported
one have a strictly smaller mean (first-encountered tie-break). -/
theorem find_top_performer_correct (students : List Student) :
    (find_top_performer students = .noStudents ↔ ∀ s ∈ students, s.grades = []) ∧
    (∀ s m, find_top_performer students = .top s m →
      m = mean s.grades ∧
      (∃ l1 l2, students.filter (fun t => !t.grades.isEmpty) = l1 ++ s :: l2 ∧
        ∀ t ∈ l1, mean t.grades < m) ∧
      (∀ t ∈ students, t.grades ≠ [] → mean t.grades ≤ m)) := by
  constructor
  · cases hfil : students.filter (fun s => !s.grades.isEmpty) with
    | nil =>
      have hres : find_top_performer students = .noStudents := by
        simp only [find_top_performer, hfil]
      rw [hres]
      refine ⟨fun _ s hs => ?_, fun _ => rfl⟩
      have := List.filter_eq_nil_iff.mp hfil s hs
      simpa using this
    | cons x rest =>
      have hres : find_top_performer students =
          .top (pymaxBy (fun st => mean st.grades) x rest)
            (mean (pymaxBy (fun st => mean st.grades) x rest).grades) := by
        simp only [find_top_performer, hfil]
      rw [hres]
      constructor
      · intro h; exact TopResult.noConfusion h
      · intro hall
        exfalso
        have hx : x ∈ students.filter (fun t => !t.grades.isEmpty) := by
          rw [hfil]; exact List.mem_cons_self x rest
        exact absurd (hall x (List.mem_filter.mp hx).1)
          (by simpa using (List.mem_filter.mp hx).2)
  · intro s m h
    rw [find_top_performer] at h
    cases hfil : students.filter (fun t => !t.grades.isEmpty) with
    | nil => rw [hfil] at h; cases h
    | cons x rest =>
      rw [hfil] at h
      injection h with h1 h2
      subst h1
      subst h2
      obtain ⟨hub, l1, l2, hdec, hlt⟩ := pymaxBy_spec (fun st => mean st.grades) rest x
      refine ⟨rfl, ⟨l1, l2, hdec, hlt⟩, ?_⟩
      intro t ht hgr
      have htf : t ∈ x :: rest := by
        rw [← hfil]
        exact List.mem_filter.mpr ⟨ht, by simpa using hgr⟩
      exact hub t htf

/-- Witness for C3 on students with means `[70, 85.5, 85.5]`: the reported
student is the first one reaching `85.5`, every qualifying student before
it has a smaller mean, and all means are at most `85.5`. -/
theorem find_top_performer_correct_witness :
    (171 / 2 : ℚ) = mean ([85, 86] : List Int) ∧
    (∃ l1 l2, ([⟨['A'], [70]⟩, ⟨['B'], [85, 86]⟩, ⟨['C'], [85, 86]⟩] :
        List Student).filter (fun t => !t.grades.isEmpty) =
        l1 ++ (⟨['B'], [85, 86]⟩ : Student) :: l2 ∧
      ∀ t ∈ l1, mean t.grades < 171 / 2) ∧
    (∀ t ∈ ([⟨['A'], [70]⟩, ⟨['B'], [85, 86]⟩, ⟨['C'], [85, 86]⟩] :
        List Student), t.grades ≠ [] → mean t.grades ≤ 171 / 2) :=
  (find_top_performer_correct
      [⟨['A'], [70]⟩, ⟨['B'], [85, 86]⟩, ⟨['C'], [85, 86]⟩]).2
    ⟨['B'], [85, 86]⟩ (171 / 2)
    (by norm_num [find_top_performer, pymaxBy, mean])

lemma pymax_spec (x : ℚ) (xs : List ℚ) :
    pymax x xs ∈ x :: xs ∧ ∀ q ∈ x :: xs, q ≤ pymax x xs := by
  simp only [pymax]
  obtain ⟨hub, l1, l2, hdec, _⟩ := pymaxBy_spec id xs x
  refine ⟨?_, fun q hq => by simpa using hub q hq⟩
  rw [hdec]
  exact List.mem_append_right l1 (List.mem_cons_self _ _)

lemma pymin_cons (x y : ℚ) (xs : List ℚ) :
    pymin x (y :: xs) = pymin (if y < x then y else x) xs := rfl

lemma pymin_spec (xs : List ℚ) :
    ∀ x : ℚ, pymin x xs ∈ x :: xs ∧ ∀ q ∈ x :: xs, pymin x xs ≤ q := by
  induction xs with
  | nil =>
    intro x
    refine ⟨by simp [pymin], ?_⟩
    intro q hq
    rw [List.mem_singleton.mp hq]
    exact le_refl _
  | cons y ys ih =>
    intro x
    rw [pymin_cons]
    by_cases h : y < x
    · rw [if_pos h]
      obtain ⟨hmem, hlb⟩ := ih y
      refine ⟨List.mem_cons_of_mem x hmem, ?_⟩
      intro q hq
      rcases List.mem_cons.mp hq with h1 | h1
      · rw [h1]
        exact le_trans (hlb y (List.mem_cons_self y ys)) (le_of_lt h)
      · exact hlb q h1
    · rw [if_neg h]
      push_neg at h
      obtain ⟨hmem, hlb⟩ := ih x
      refine ⟨?_, ?_⟩
      · rcases List.mem_cons.mp hmem with h1 | h1
        · rw [h1]
          exact List.mem_cons_self x (y :: ys)
        · exact List.mem_cons_of_mem x (List.mem_cons_of_mem y h1)
      · intro q hq
        rcases List.mem_cons.mp hq with h1 | h1
        · rw [h1]
          exact hlb x (List.mem_cons_self x ys)
        · rcases List.mem_cons.mp h1 with h2 | h2
          · rw [h2]
            exact le_trans (hlb x (List.mem_cons_self x ys)) h
          · exact hlb q (List.mem_cons_of_mem x h2)

/-- Claim C4: on a nonempty student list, `show_report` emits one line per
student — the exact arithmetic mean of their grades for a student with at
least one grade (the value the program then formats to one decimal place),
`N/A` for a student with none, with no division ever taken over an empty
list — and a summary built over exactly the students with at least one
grade: its max and min are attained averages bounding all of them and its
overall value is the mean of the collected averages; the summary is
replaced by the distinct "no students with grades" notice exactly when no
student has any grade. -/
theorem show_report_correct (students : List Student) (hne : students ≠ []) :
    ∃ lines summary, show_report students = .report lines summary ∧
      lines.length = students.length ∧
      (∀ (i : ℕ) (h1 : i < students.length) (h2 : i < lines.length),
        (students[i].grades = [] → lines[i] = .na students[i].name) ∧
        (students[i].grades ≠ [] →
          lines[i] = .avg students[i].name (mean students[i].grades))) ∧
      (summary = none ↔ ∀ s ∈ students, s.grades = []) ∧
      (∀ mx mn ov, summary = some (mx, mn, ov) →
        mx ∈ report_averages students ∧
        (∀ q ∈ report_averages students, q ≤ mx) ∧
        mn ∈ report_averages students ∧
        (∀ q ∈ report_averages students, mn ≤ q) ∧
        ov = (report_averages students).sum /
          ((report_averages students).length : ℚ)) := by
  have hne' : students.isEmpty = false := by
    cases students with
    | nil => exact absurd rfl hne
    | cons s ss => rfl
  refine ⟨students.map (fun s => if s.grades.isEmpty then ReportLine.na s.name
      else ReportLine.avg s.name (mean s.grades)),
    (match report_averages students with
      | [] => none
      | a :: as => some (pymax a as, pymin a as, meanQ (a :: as))),
    ?_, by simp, ?_, ?_, ?_⟩
  · simp [show_report, hne']
  · intro i h1 h2
    constructor <;> intro hg <;>
      simp [List.getElem_map, List.isEmpty_iff, hg]
  · cases hra : report_averages students with
    | nil =>
      refine ⟨fun _ s hs => ?_, fun _ => rfl⟩
      have hfil : students.filter (fun s => !s.grades.isEmpty) = [] := by
        have := hra
        unfold report_averages at this
        exact List.map_eq_nil_iff.mp this
      have := List.filter_eq_nil_iff.mp hfil s hs
      simpa using this
    | cons a as =>
      constructor
      · intro h; exact Option.noConfusion h
      · intro hall
        exfalso
        have hfil : students.filter (fun s => !s.grades.isEmpty) = [] :=
          List.filter_eq_nil_iff.mpr (fun s hs => by simp [hall s hs])
        have : report_averages students = [] := by
          simp [report_averages, hfil]
        rw [this] at hra
        cases hra
  · intro mx mn ov
    cases hra : report_averages students with
    | nil =>
      intro hsum
      cases hsum
    | cons a as =>
      intro hsum
      have h3 := Option.some.inj hsum
      simp only [Prod.mk.injEq] at h3
      obtain ⟨rfl, rfl, rfl⟩ := h3
      exact ⟨(pymax_spec a as).1, fun q hq => (pymax_spec a as).2 q hq,
        (pymin_spec as a).1, fun q hq => (pymin_spec as a).2 q hq, rfl⟩

/-- Witness for C4 on students `A` (no grades) and `B` (grades 80, 90):
the report exists with an `N/A` line for `A`, the exact mean `85` for `B`,
and summary statistics over the single collected average. -/
theorem show_report_correct_witness :
    ∃ lines summary,
      show_report [⟨['A'], []⟩, ⟨['B'], [80, 90]⟩] = .report lines summary ∧
      lines.length = ([⟨['A'], []⟩, ⟨['B'], [80, 90]⟩] : List Student).length ∧
      (∀ (i : ℕ) (h1 : i < ([⟨['A'], []⟩, ⟨['B'], [80, 90]⟩] :
          List Student).length) (h2 : i < lines.length),
        (([⟨['A'], []⟩, ⟨['B'], [80, 90]⟩] : List Student)[i].grades = [] →
          lines[i] = .na ([⟨['A'], []⟩, ⟨['B'], [80, 90]⟩] :
            List Student)[i].name) ∧
        (([⟨['A'], []⟩, ⟨['B'], [80, 90]⟩] : List Student)[i].grades ≠ [] →
          lines[i] = .avg ([⟨['A'], []⟩, ⟨['B'], [80, 90]⟩] :
            List Student)[i].name
            (mean ([⟨['A'], []⟩, ⟨['B'], [80, 90]⟩] :
              List Student)[i].grades))) ∧
      (summary = none ↔
        ∀ s ∈ ([⟨['A'], []⟩, ⟨['B'], [80, 90]⟩] : List Student),
          s.grades = []) ∧
      (∀ mx mn ov, summary = some (mx, mn, ov) →
        mx ∈ report_averages [⟨['A'], []⟩, ⟨['B'], [80, 90]⟩] ∧
        (∀ q ∈ report_averages [⟨['A'], []⟩, ⟨['B'], [80, 90]⟩], q ≤ mx) ∧
        mn ∈ report_averages [⟨['A'], []⟩, ⟨['B'], [80, 90]⟩] ∧
        (∀ q ∈ report_averages [⟨['A'], []⟩, ⟨['B'], [80, 90]⟩], mn ≤ q) ∧
        ov = (report_averages [⟨['A'], []⟩, ⟨['B'], [80, 90]⟩]).sum /
          ((report_averages [⟨['A'], []⟩, ⟨['B'], [80, 90]⟩]).length : ℚ)) :=
  show_report_correct [⟨['A'], []⟩, ⟨['B'], [80, 90]⟩] (by decide)
